import Mathlib

/-!
Shallow embedding of `app.py` from the stem-separation repository.

The program is a command-line pipeline: resolve an input reference (local path
or URL) to a local audio file, run the external `demucs` tool as a subprocess
in two-stem mode, locate the produced `vocals` / `no_vocals` files under the
tool's output-directory convention, copy them to fixed names in the working
directory, remove the temporary output root, and finally delete the staged
input when it had been downloaded.

External nondeterminism (the subprocess exit code, the output directory's
existence and listing, success of the two copies, existence and removability
of the staged file at cleanup time) enters through explicit environment
records.  Filesystem effects are tracked as explicit state (names present in
the working directory, existence of the temporary output root) plus boolean
effect traces recording which stages executed.
-/

namespace StemSep

/-- Leading-segment test over character lists: `matchesAt p cs` holds when the
pattern `p` occurs right at the head of `cs`. -/
def matchesAt : List Char → List Char → Bool
  | [], _ => true
  | _ :: _, [] => false
  | p :: ps, c :: cs => p = c && matchesAt ps cs

/-- Substring search over character lists. -/
def findSub (pat : List Char) : List Char → Bool
  | [] => matchesAt pat []
  | c :: cs => matchesAt pat (c :: cs) || findSub pat cs

/-- Python's `pat in s` substring containment on strings. -/
def strContains (s pat : String) : Bool := findSub pat.data s.data

/-- Python's `s.endswith(suffix)`. -/
def strEndsWith (s suffix : String) : Bool :=
  matchesAt suffix.data.reverse s.data.reverse

/-- Python's `url_or_path.startswith(("http://", "https://"))`
(app.py lines 15 and 164). -/
def startsWithHttp (s : String) : Bool :=
  matchesAt ("http://".data) s.data || matchesAt ("https://".data) s.data

/-- Helper for `basename`: accumulate the current path component, resetting at
each `/` separator. -/
def basenameAux : List Char → List Char → List Char
  | acc, [] => acc.reverse
  | acc, c :: cs => if c = '/' then basenameAux [] cs else basenameAux (c :: acc) cs

/-- Python's `os.path.basename`: the part of the path after the last slash. -/
def basename (p : String) : String := String.mk (basenameAux [] p.data)

/-- Split a character list at its last dot: returns the part before the last
dot and the part starting with that dot, or `none` when no dot occurs. -/
def splitAtLastDot : List Char → Option (List Char × List Char)
  | [] => none
  | c :: rest =>
    match splitAtLastDot rest with
    | some (b, e) => some (c :: b, e)
    | none => if c = '.' then some ([], c :: rest) else none

/-- Python's `os.path.splitext` on a bare file name: splits off the extension
at the last dot, except when every character before that dot is itself a dot
(so `.cshrc` has no extension). -/
def splitext (name : String) : String × String :=
  match splitAtLastDot name.data with
  | some (b, e) => if b.all (fun c => c = '.') then (name, "") else (String.mk b, String.mk e)
  | none => (name, "")

/-- Python's `os.path.join` on the two-component paths this program builds. -/
def joinPath (a b : String) : String := a ++ "/" ++ b

/-- Take characters until one of the stop characters is met. -/
def takeUntil (stop : List Char) : List Char → List Char
  | [] => []
  | c :: cs => if stop.contains c then [] else c :: takeUntil stop cs

/-- The path component of `urlparse`: drop the scheme and network location,
keep from the first `/` on, and cut at the query or fragment separator
(app.py line 19). -/
def urlPathOf (url : String) : String :=
  let rest : List Char :=
    if matchesAt ("https://".data) url.data then url.data.drop 8
    else if matchesAt ("http://".data) url.data then url.data.drop 7
    else url.data
  String.mk (takeUntil ['?', '#'] (rest.dropWhile (fun c => c ≠ '/')))

/-- Destination filename derived from a URL (app.py lines 19-22): the basename
of the URL's path component, falling back to `downloaded_audio.mp3` when that
is empty or has no dot. -/
def deriveFilename (url : String) : String :=
  let filename := basename (urlPathOf url)
  if filename = "" || !(findSub ['.'] filename.data) then "downloaded_audio.mp3"
  else filename

/-- Environment oracle for the source resolver: which local paths exist, and
whether the HTTP GET for a URL succeeds with a success status. -/
structure ResolveEnv where
  pathExists : String → Bool
  httpOk : String → Bool

/-- Outcome of the source resolver: the returned path (or `none` on failure)
together with the list of files it created in the working directory. -/
structure ResolveOutcome where
  result : Option String
  created : List String

/-- Embedding of `download_audio` (app.py lines 13-41).  For a URL the
success-status check (`raise_for_status`) runs before the destination file is
opened, so on HTTP failure no file is created; for a local path the string is
returned unchanged when the path exists. -/
def download_audio (env : ResolveEnv) (url_or_path : String) : ResolveOutcome :=
  if startsWithHttp url_or_path then
    let filename := deriveFilename url_or_path
    if env.httpOk url_or_path then
      { result := some filename, created := [filename] }
    else
      { result := none, created := [] }
  else
    if env.pathExists url_or_path then
      { result := some url_or_path, created := [] }
    else
      { result := none, created := [] }

/-- The fixed temporary output root (app.py line 51). -/
def temp_output : String := "temp_separation"

/-- Environment oracle for one separation run: the subprocess exit code, the
existence and listing of the expected output directory, whether each of the
two `shutil.copy2` calls succeeds (raises no exception), and whether the
`shutil.rmtree` removal of the temporary output root succeeds — the
surrounding `try` also catches a removal failure after both copies have
already succeeded. -/
structure SepEnv where
  returncode : Int
  outputDirExists : Bool
  listing : List String
  copyVocalsOk : Bool
  copyInstrumentalsOk : Bool
  rmtreeOk : Bool

/-- Observable filesystem state: file names present in the working directory
and whether the temporary output root exists. -/
structure FsState where
  cwd : List String
  tempExists : Bool

/-- Outcome of one separation run: the returned dictionary (as an association
list), the resulting filesystem state, and an effect trace recording whether
the output directory was listed, each copy succeeded, and the temporary
output root was removed. -/
structure SepOutcome where
  mapping : List (String × String)
  fs : FsState
  listed : Bool
  copiedVocals : Bool
  copiedInstrumentals : Bool
  removedTemp : Bool

/-- One iteration of the locator loop (app.py lines 88-93): an audio file
whose name contains `vocals` but not `no_vocals` becomes the vocals
candidate, otherwise one containing `no_vocals` becomes the instrumentals
candidate; each assignment overwrites the previous candidate. -/
def locStep (output_dir : String) (acc : Option String × Option String)
    (file : String) : Option String × Option String :=
  if strEndsWith file ".wav" || strEndsWith file ".mp3" then
    if strContains file "vocals" && !(strContains file "no_vocals") then
      (some (joinPath output_dir file), acc.2)
    else if strContains file "no_vocals" then
      (acc.1, some (joinPath output_dir file))
    else acc
  else acc

/-- The locator loop over the directory listing (app.py lines 85-93), starting
from `(None, None)`. -/
def locateStems (output_dir : String) (files : List String) :
    Option String × Option String :=
  files.foldl (locStep output_dir) (none, none)

/-- The expected output directory (app.py lines 77-78):
`temp_separation/htdemucs/<input basename without extension>`. -/
def sepOutputDir (audio_file : String) : String :=
  joinPath (joinPath temp_output "htdemucs") (splitext (basename audio_file)).1

/-- Register a file name in the working directory; copying onto an existing
name overwrites it, so the name set gains at most one entry. -/
def addFile (cwd : List String) (f : String) : List String :=
  if f ∈ cwd then cwd else cwd ++ [f]

/-- Embedding of `vocals_instrumentals_separation` (app.py lines 43-118).
The temporary output root is created first; a nonzero exit code, a missing
output directory, a missing role, or a copy exception each short-circuit to
the empty dictionary (the surrounding `try` catches the copy exceptions).
After both copies succeed the `shutil.rmtree` removal runs still inside the
`try`: if it fails both fixed-name files have been written but the function
returns the empty dictionary and the temporary root remains; on full success
the temporary root is removed and the two-entry dictionary is returned. -/
def vocals_instrumentals_separation (env : SepEnv) (audio_file : String)
    (s0 : FsState) : SepOutcome :=
  let s1 : FsState := { s0 with tempExists := true }
  if env.returncode ≠ 0 then
    { mapping := [], fs := s1, listed := false, copiedVocals := false,
      copiedInstrumentals := false, removedTemp := false }
  else
    let output_dir := sepOutputDir audio_file
    if !env.outputDirExists then
      { mapping := [], fs := s1, listed := false, copiedVocals := false,
        copiedInstrumentals := false, removedTemp := false }
    else
      match locateStems output_dir env.listing with
      | (some _, some _) =>
        if !env.copyVocalsOk then
          { mapping := [], fs := s1, listed := true, copiedVocals := false,
            copiedInstrumentals := false, removedTemp := false }
        else
          let s2 : FsState := { s1 with cwd := addFile s1.cwd "only_vocals.mp3" }
          if !env.copyInstrumentalsOk then
            { mapping := [], fs := s2, listed := true, copiedVocals := true,
              copiedInstrumentals := false, removedTemp := false }
          else
            let s3 : FsState :=
              { s2 with cwd := addFile s2.cwd "only_instrumentals.mp3" }
            if !env.rmtreeOk then
              { mapping := [], fs := s3, listed := true, copiedVocals := true,
                copiedInstrumentals := true, removedTemp := false }
            else
              { mapping := [("vocals", "only_vocals.mp3"),
                            ("instrumentals", "only_instrumentals.mp3")],
                fs := { s3 with tempExists := false }, listed := true,
                copiedVocals := true, copiedInstrumentals := true,
                removedTemp := true }
      | (some _, none) =>
        { mapping := [], fs := s1, listed := true, copiedVocals := false,
          copiedInstrumentals := false, removedTemp := false }
      | (none, _) =>
        { mapping := [], fs := s1, listed := true, copiedVocals := false,
          copiedInstrumentals := false, removedTemp := false }

/-- Environment for a whole run: resolver and separation oracles, plus whether
the staged file still exists at cleanup time and whether `os.remove` on it
succeeds. -/
structure MainEnv where
  resolve : ResolveEnv
  sep : SepEnv
  stagingExistsAtEnd : Bool
  removeOk : Bool

/-- Outcome of a whole run: the process exit code, the resolved staging path,
the separation dictionary, the final filesystem state, whether control
reached the cleanup block, and whether the staged file was removed. -/
structure MainOutcome where
  exitCode : Nat
  resolved : Option String
  sepMapping : List (String × String)
  fs : FsState
  cleanupReached : Bool
  removedStaging : Bool

/-- Embedding of `main` (app.py lines 137-169).  `argv` is the full `sys.argv`
including the program name.  A wrong argument count or a falsy resolver result
exits with status 1 before the cleanup block; otherwise separation runs, the
run always reaches cleanup, the staged file is removed only when the input was
a URL and the file still exists and `os.remove` succeeds, and the exit status
is 0 regardless of the separation outcome or a removal failure. -/
def main (env : MainEnv) (argv : List String) (fs0 : FsState) : MainOutcome :=
  if argv.length ≠ 2 then
    { exitCode := 1, resolved := none, sepMapping := [], fs := fs0,
      cleanupReached := false, removedStaging := false }
  else
    let audio_input := argv.getD 1 ""
    match (download_audio env.resolve audio_input).result with
    | none =>
      { exitCode := 1, resolved := none, sepMapping := [], fs := fs0,
        cleanupReached := false, removedStaging := false }
    | some audio_file =>
      if audio_file = "" then
        { exitCode := 1, resolved := some "", sepMapping := [], fs := fs0,
          cleanupReached := false, removedStaging := false }
      else
        let out := vocals_instrumentals_separation env.sep audio_file fs0
        { exitCode := 0, resolved := some audio_file, sepMapping := out.mapping,
          fs := out.fs, cleanupReached := true,
          removedStaging :=
            startsWithHttp audio_input && env.stagingExistsAtEnd && env.removeOk }

/-- Specification-side rule for the vocals role: an audio file (`.wav` or
`.mp3`) whose name contains `vocals` but not `no_vocals`. -/
def vocalsMatch (f : String) : Bool :=
  (strEndsWith f ".wav" || strEndsWith f ".mp3") &&
    (strContains f "vocals" && !(strContains f "no_vocals"))

/-- Specification-side rule for the instrumentals role: an audio file whose
name contains `no_vocals`. -/
def instrumentalsMatch (f : String) : Bool :=
  (strEndsWith f ".wav" || strEndsWith f ".mp3") && strContains f "no_vocals"

/-- The last element of a list satisfying a predicate, if any: the candidate a
loop with overwriting assignment ends up with. -/
def lastMatch (p : String → Bool) : List String → Option String
  | [] => none
  | f :: rest =>
    match lastMatch p rest with
    | some g => some g
    | none => if p f then some f else none

/-- Modelled from the spec: the repository's MultiStem variant is not under
`src/`, so its Result Materializer is modelled from the specification's words.
`timestampChars w t` renders the timestamp value `t` (seconds) as a fixed
width-`w` zero-padded decimal digit string — the spec's "second-resolution,
sortable numeric format". -/
def timestampChars : Nat → Nat → List Char
  | 0, _ => []
  | w + 1, t => timestampChars w (t / 10) ++ [Nat.digitChar (t % 10)]

/-- Modelled from the spec: the 14-digit timestamp string (`YYYYMMDDHHMMSS`
shaped seconds value) used by the MultiStem Result Materializer. -/
def timestampStr (t : Nat) : String := String.mk (timestampChars 14 t)

/-- Modelled from the spec: the MultiStem Result Materializer's new file name
— the timestamp is inserted between the original base name and the extension
(`<stem>_<timestamp>.<ext>` in the spec's filesystem-layout section). -/
def multiStemNewName (t : Nat) (filename : String) : String :=
  (splitext filename).1 ++ "_" ++ timestampStr t ++ (splitext filename).2

/-- Modelled from the spec: the MultiStem Result Materializer renames each
discovered stem file in place within its existing directory. -/
def multiStemMaterialize (t : Nat) (dir : String) (files : List String) :
    List String :=
  files.map (fun f => joinPath dir (multiStemNewName t f))

/-! ### Helper lemmas -/

theorem strData_append (a b : String) : (a ++ b).data = a.data ++ b.data := by
  cases a
  cases b
  rfl

theorem mem_addFile_self (cwd : List String) (f : String) : f ∈ addFile cwd f := by
  unfold addFile
  split
  · assumption
  · exact List.mem_append_right _ (List.mem_singleton.mpr rfl)

theorem mem_addFile_of_mem (cwd : List String) (f g : String) (h : f ∈ cwd) :
    f ∈ addFile cwd g := by
  unfold addFile
  split
  · exact h
  · exact List.mem_append_left _ h

theorem strData_mk (l : List Char) : (String.mk l).data = l := rfl

theorem length_two_shape (l : List String) (h : l.length = 2) :
    ∃ a b, l = [a, b] := by
  rcases l with _ | ⟨a, _ | ⟨b, _ | ⟨c, t⟩⟩⟩
  · simp at h
  · simp at h
  · exact ⟨a, b, rfl⟩
  · simp at h

theorem locStep_eq (d : String) (acc : Option String × Option String) (f : String) :
    locStep d acc f =
      ((if vocalsMatch f then some (joinPath d f) else acc.1),
       (if instrumentalsMatch f then some (joinPath d f) else acc.2)) := by
  unfold locStep vocalsMatch instrumentalsMatch
  cases he : (strEndsWith f ".wav" || strEndsWith f ".mp3") <;>
    cases hv : strContains f "vocals" <;>
      cases hn : strContains f "no_vocals" <;>
        simp [he, hv, hn]

theorem locateStems_foldl_eq (d : String) (files : List String) :
    ∀ acc : Option String × Option String,
      files.foldl (locStep d) acc =
        ((match lastMatch vocalsMatch files with
          | some g => some (joinPath d g)
          | none => acc.1),
         (match lastMatch instrumentalsMatch files with
          | some g => some (joinPath d g)
          | none => acc.2)) := by
  induction files with
  | nil => intro acc; simp [lastMatch]
  | cons f rest ih =>
    intro acc
    rw [List.foldl_cons, ih, locStep_eq]
    cases hv : lastMatch vocalsMatch rest <;>
      cases hi : lastMatch instrumentalsMatch rest <;>
        cases hvf : vocalsMatch f <;>
          cases hif : instrumentalsMatch f <;>
            simp [lastMatch, hv, hi, hvf, hif]

theorem locateStems_eq (d : String) (files : List String) :
    locateStems d files =
      (Option.map (fun g => joinPath d g) (lastMatch vocalsMatch files),
       Option.map (fun g => joinPath d g) (lastMatch instrumentalsMatch files)) := by
  rw [locateStems, locateStems_foldl_eq]
  cases lastMatch vocalsMatch files <;>
    cases lastMatch instrumentalsMatch files <;> simp

theorem lastMatch_sound (p : String → Bool) :
    ∀ (l : List String) (f : String), lastMatch p l = some f → f ∈ l ∧ p f = true := by
  intro l
  induction l with
  | nil => intro f h; simp [lastMatch] at h
  | cons g rest ih =>
    intro f h
    rw [lastMatch] at h
    cases hr : lastMatch p rest with
    | some x =>
      rw [hr] at h
      cases h
      obtain ⟨hx, hp⟩ := ih f hr
      exact ⟨List.mem_cons_of_mem g hx, hp⟩
    | none =>
      rw [hr] at h
      by_cases hg : p g = true
      · rw [if_pos hg] at h
        cases h
        exact ⟨List.mem_cons_self g rest, hg⟩
      · rw [if_neg hg] at h
        cases h

theorem lastMatch_isSome (p : String → Bool) :
    ∀ (l : List String) (f : String), f ∈ l → p f = true →
      (lastMatch p l).isSome = true := by
  intro l
  induction l with
  | nil => intro f h; simp at h
  | cons g rest ih =>
    intro f hf hp
    rw [lastMatch]
    cases hr : lastMatch p rest with
    | some x => simp
    | none =>
      rcases List.mem_cons.mp hf with h | h
      · subst h; simp [hp]
      · have hx := ih f h hp
        rw [hr] at hx
        simp at hx

theorem lastMatch_append (p : String → Bool) (f : String) (hp : p f = true) :
    ∀ pre : List String, lastMatch p (pre ++ [f]) = some f := by
  intro pre
  induction pre with
  | nil => simp [lastMatch, hp]
  | cons g rest ih =>
    rw [List.cons_append, lastMatch, ih]

theorem timestampChars_length (w : Nat) : ∀ t, (timestampChars w t).length = w := by
  induction w with
  | zero => intro t; rfl
  | succ n ih => intro t; simp [timestampChars, ih]

theorem digitChar_inj_lt :
    ∀ a, a < 10 → ∀ b, b < 10 → Nat.digitChar a = Nat.digitChar b → a = b := by
  decide

theorem timestampChars_inj (w : Nat) :
    ∀ t1 t2, t1 < 10 ^ w → t2 < 10 ^ w →
      timestampChars w t1 = timestampChars w t2 → t1 = t2 := by
  induction w with
  | zero =>
    intro t1 t2 h1 h2 _
    simp [pow_zero] at h1 h2
    omega
  | succ n ih =>
    intro t1 t2 h1 h2 heq
    simp only [timestampChars] at heq
    have hlen : (timestampChars n (t1 / 10)).length =
        (timestampChars n (t2 / 10)).length := by
      rw [timestampChars_length, timestampChars_length]
    obtain ⟨heq1, heq2⟩ := List.append_inj heq hlen
    have hd : t1 % 10 = t2 % 10 := by
      have hchar : Nat.digitChar (t1 % 10) = Nat.digitChar (t2 % 10) := by
        simpa using heq2
      exact digitChar_inj_lt _ (Nat.mod_lt _ (by norm_num)) _
        (Nat.mod_lt _ (by norm_num)) hchar
    have hq : t1 / 10 = t2 / 10 := by
      apply ih
      · exact Nat.div_lt_of_lt_mul (by rw [← pow_succ']; exact h1)
      · exact Nat.div_lt_of_lt_mul (by rw [← pow_succ']; exact h2)
      · exact heq1
    omega

/-! ### Claim theorems -/

/-- C4: for every input reference that does not start with `http://` or
`https://`, the source resolver returns that exact string unchanged when it
names an existing filesystem path, returns `none` when no such path exists,
and never creates a file or re-derives the path. -/
theorem resolver_local_identity (env : ResolveEnv) (ref : String)
    (h : startsWithHttp ref = false) :
    (download_audio env ref).result =
      (if env.pathExists ref then some ref else none) ∧
    (download_audio env ref).created = [] := by
  unfold download_audio
  cases hp : env.pathExists ref <;> simp [h, hp]

theorem resolver_local_identity_witness :
    (download_audio ⟨fun s => s == "song.mp3", fun _ => false⟩ "song.mp3").result =
      (if (fun s => s == "song.mp3") "song.mp3" then some "song.mp3" else none) ∧
    (download_audio ⟨fun s => s == "song.mp3", fun _ => false⟩ "song.mp3").created = [] :=
  resolver_local_identity ⟨fun s => s == "song.mp3", fun _ => false⟩ "song.mp3" rfl

/-- C5: for every URL input whose HTTP GET fails (transport failure or non-2xx
status), the source resolver returns failure and creates no output file — the
status check precedes opening the destination file. -/
theorem resolver_url_failure_creates_nothing (env : ResolveEnv) (ref : String)
    (hurl : startsWithHttp ref = true) (hfail : env.httpOk ref = false) :
    (download_audio env ref).result = none ∧
    (download_audio env ref).created = [] := by
  unfold download_audio
  simp [hurl, hfail]

theorem resolver_url_failure_creates_nothing_witness :
    (download_audio ⟨fun _ => false, fun _ => false⟩
      "https://example.com/a.mp3").result = none ∧
    (download_audio ⟨fun _ => false, fun _ => false⟩
      "https://example.com/a.mp3").created = [] :=
  resolver_url_failure_creates_nothing ⟨fun _ => false, fun _ => false⟩
    "https://example.com/a.mp3" rfl rfl

/-- C3: if the external tool's subprocess exits with a nonzero code, the
separation returns the empty mapping and performs no output locating, no
copying, and no temp-directory removal after that failure. -/
theorem separation_nonzero_exit_empty (env : SepEnv) (audio_file : String)
    (s0 : FsState) (h : env.returncode ≠ 0) :
    (vocals_instrumentals_separation env audio_file s0).mapping = [] ∧
    (vocals_instrumentals_separation env audio_file s0).listed = false ∧
    (vocals_instrumentals_separation env audio_file s0).copiedVocals = false ∧
    (vocals_instrumentals_separation env audio_file s0).copiedInstrumentals = false ∧
    (vocals_instrumentals_separation env audio_file s0).removedTemp = false ∧
    (vocals_instrumentals_separation env audio_file s0).fs.cwd = s0.cwd := by
  unfold vocals_instrumentals_separation
  simp [h]

theorem separation_nonzero_exit_empty_witness :
    (vocals_instrumentals_separation
      ⟨1, true, ["vocals.mp3", "no_vocals.mp3"], true, true, true⟩ "song.mp3"
      ⟨["x.mp3"], false⟩).mapping = [] ∧
    (vocals_instrumentals_separation
      ⟨1, true, ["vocals.mp3", "no_vocals.mp3"], true, true, true⟩ "song.mp3"
      ⟨["x.mp3"], false⟩).listed = false ∧
    (vocals_instrumentals_separation
      ⟨1, true, ["vocals.mp3", "no_vocals.mp3"], true, true, true⟩ "song.mp3"
      ⟨["x.mp3"], false⟩).copiedVocals = false ∧
    (vocals_instrumentals_separation
      ⟨1, true, ["vocals.mp3", "no_vocals.mp3"], true, true, true⟩ "song.mp3"
      ⟨["x.mp3"], false⟩).copiedInstrumentals = false ∧
    (vocals_instrumentals_separation
      ⟨1, true, ["vocals.mp3", "no_vocals.mp3"], true, true, true⟩ "song.mp3"
      ⟨["x.mp3"], false⟩).removedTemp = false ∧
    (vocals_instrumentals_separation
      ⟨1, true, ["vocals.mp3", "no_vocals.mp3"], true, true, true⟩ "song.mp3"
      ⟨["x.mp3"], false⟩).fs.cwd = ["x.mp3"] :=
  separation_nonzero_exit_empty
    ⟨1, true, ["vocals.mp3", "no_vocals.mp3"], true, true, true⟩ "song.mp3"
    ⟨["x.mp3"], false⟩ (by decide)

/-- C9: the separation result is all-or-nothing — every execution returns
either the two-entry mapping holding both the vocals and the instrumentals
keys, or the completely empty mapping; no path yields exactly one role. -/
theorem separation_all_or_nothing (env : SepEnv) (audio_file : String)
    (s0 : FsState) :
    (vocals_instrumentals_separation env audio_file s0).mapping = [] ∨
    (vocals_instrumentals_separation env audio_file s0).mapping =
      [("vocals", "only_vocals.mp3"), ("instrumentals", "only_instrumentals.mp3")] := by
  unfold vocals_instrumentals_separation
  dsimp only
  split
  · exact Or.inl rfl
  · split
    · exact Or.inl rfl
    · split
      · split
        · exact Or.inl rfl
        · split
          · exact Or.inl rfl
          · split
            · exact Or.inl rfl
            · exact Or.inr rfl
      · exact Or.inl rfl
      · exact Or.inl rfl

/-- C2 counterexample: a run in which both roles are located and both copies
succeed but the `shutil.rmtree` removal fails — a path handled by the
blanket `except` at app.py lines 116-118 — ends with both copies performed
yet the `temp_separation` root still existing and the empty mapping, so copy
success alone does not guarantee the claimed postcondition. -/
theorem twostem_success_materializes_counterexample :
    locateStems (sepOutputDir "song.mp3") ["vocals.mp3", "no_vocals.mp3"] =
      (some "temp_separation/htdemucs/song/vocals.mp3",
       some "temp_separation/htdemucs/song/no_vocals.mp3") ∧
    (vocals_instrumentals_separation
      ⟨0, true, ["vocals.mp3", "no_vocals.mp3"], true, true, false⟩ "song.mp3"
      ⟨[], false⟩).copiedVocals = true ∧
    (vocals_instrumentals_separation
      ⟨0, true, ["vocals.mp3", "no_vocals.mp3"], true, true, false⟩ "song.mp3"
      ⟨[], false⟩).copiedInstrumentals = true ∧
    (vocals_instrumentals_separation
      ⟨0, true, ["vocals.mp3", "no_vocals.mp3"], true, true, false⟩ "song.mp3"
      ⟨[], false⟩).fs.tempExists = true ∧
    (vocals_instrumentals_separation
      ⟨0, true, ["vocals.mp3", "no_vocals.mp3"], true, true, false⟩ "song.mp3"
      ⟨[], false⟩).mapping = [] := by
  refine ⟨by decide, rfl, rfl, rfl, rfl⟩

/-- C2 (amended): after a TwoStem run in which both roles are located, both
copies succeed, and the removal of the temporary tree succeeds, the returned
mapping is exactly the two fixed-name artifacts, both `only_vocals.mp3` and
`only_instrumentals.mp3` are present in the working directory (overwriting
any prior files of those names), and the `temp_separation` output root no
longer exists. -/
theorem twostem_success_materializes (env : SepEnv) (audio_file : String)
    (s0 : FsState) (v i : String)
    (hrc : env.returncode = 0) (hdir : env.outputDirExists = true)
    (hloc : locateStems (sepOutputDir audio_file) env.listing = (some v, some i))
    (hcv : env.copyVocalsOk = true) (hci : env.copyInstrumentalsOk = true)
    (hrm : env.rmtreeOk = true) :
    (vocals_instrumentals_separation env audio_file s0).mapping =
      [("vocals", "only_vocals.mp3"), ("instrumentals", "only_instrumentals.mp3")] ∧
    "only_vocals.mp3" ∈ (vocals_instrumentals_separation env audio_file s0).fs.cwd ∧
    "only_instrumentals.mp3" ∈
      (vocals_instrumentals_separation env audio_file s0).fs.cwd ∧
    (vocals_instrumentals_separation env audio_file s0).fs.tempExists = false ∧
    (vocals_instrumentals_separation env audio_file s0).removedTemp = true := by
  refine ⟨?_, ?_, ?_, ?_, ?_⟩ <;>
    simp [vocals_instrumentals_separation, hrc, hdir, hloc, hcv, hci, hrm]
  · exact mem_addFile_of_mem _ _ _ (mem_addFile_self _ _)
  · exact mem_addFile_self _ _

theorem twostem_success_materializes_witness :
    (vocals_instrumentals_separation
      ⟨0, true, ["vocals.mp3", "no_vocals.mp3"], true, true, true⟩ "song.mp3"
      ⟨["only_vocals.mp3"], false⟩).mapping =
      [("vocals", "only_vocals.mp3"), ("instrumentals", "only_instrumentals.mp3")] ∧
    "only_vocals.mp3" ∈ (vocals_instrumentals_separation
      ⟨0, true, ["vocals.mp3", "no_vocals.mp3"], true, true, true⟩ "song.mp3"
      ⟨["only_vocals.mp3"], false⟩).fs.cwd ∧
    "only_instrumentals.mp3" ∈ (vocals_instrumentals_separation
      ⟨0, true, ["vocals.mp3", "no_vocals.mp3"], true, true, true⟩ "song.mp3"
      ⟨["only_vocals.mp3"], false⟩).fs.cwd ∧
    (vocals_instrumentals_separation
      ⟨0, true, ["vocals.mp3", "no_vocals.mp3"], true, true, true⟩ "song.mp3"
      ⟨["only_vocals.mp3"], false⟩).fs.tempExists = false ∧
    (vocals_instrumentals_separation
      ⟨0, true, ["vocals.mp3", "no_vocals.mp3"], true, true, true⟩ "song.mp3"
      ⟨["only_vocals.mp3"], false⟩).removedTemp = true :=
  twostem_success_materializes
    ⟨0, true, ["vocals.mp3", "no_vocals.mp3"], true, true, true⟩ "song.mp3"
    ⟨["only_vocals.mp3"], false⟩
    "temp_separation/htdemucs/song/vocals.mp3"
    "temp_separation/htdemucs/song/no_vocals.mp3"
    rfl rfl (by decide) rfl rfl rfl

/-- C1: the TwoStem locator assigns roles by filename — the vocals member is
an audio file (`.wav`/`.mp3`) whose name contains `vocals` but not
`no_vocals`, the instrumentals member an audio file whose name contains
`no_vocals`; each role is filled exactly when some file in the listing matches
its rule, and if either role has no matching file the separation returns the
empty mapping rather than a one-role mapping. -/
theorem twostem_locator_role_partition (env : SepEnv) (audio_file : String)
    (s0 : FsState) :
    (∀ v, (locateStems (sepOutputDir audio_file) env.listing).1 = some v →
      ∃ f, f ∈ env.listing ∧ vocalsMatch f = true ∧
        v = joinPath (sepOutputDir audio_file) f) ∧
    (∀ i, (locateStems (sepOutputDir audio_file) env.listing).2 = some i →
      ∃ f, f ∈ env.listing ∧ instrumentalsMatch f = true ∧
        i = joinPath (sepOutputDir audio_file) f) ∧
    (∀ f, f ∈ env.listing → vocalsMatch f = true →
      ((locateStems (sepOutputDir audio_file) env.listing).1).isSome = true) ∧
    (∀ f, f ∈ env.listing → instrumentalsMatch f = true →
      ((locateStems (sepOutputDir audio_file) env.listing).2).isSome = true) ∧
    (((locateStems (sepOutputDir audio_file) env.listing).1 = none ∨
      (locateStems (sepOutputDir audio_file) env.listing).2 = none) →
      (vocals_instrumentals_separation env audio_file s0).mapping = []) := by
  have hc := locateStems_eq (sepOutputDir audio_file) env.listing
  refine ⟨?_, ?_, ?_, ?_, ?_⟩
  · intro v hv
    rw [hc] at hv
    simp only [Option.map_eq_some'] at hv
    obtain ⟨g, hg, hgv⟩ := hv
    obtain ⟨hmem, hmatch⟩ := lastMatch_sound _ _ _ hg
    exact ⟨g, hmem, hmatch, hgv.symm⟩
  · intro i hi
    rw [hc] at hi
    simp only [Option.map_eq_some'] at hi
    obtain ⟨g, hg, hgi⟩ := hi
    obtain ⟨hmem, hmatch⟩ := lastMatch_sound _ _ _ hg
    exact ⟨g, hmem, hmatch, hgi.symm⟩
  · intro f hf hmatch
    rw [hc]
    simpa using lastMatch_isSome vocalsMatch env.listing f hf hmatch
  · intro f hf hmatch
    rw [hc]
    simpa using lastMatch_isSome instrumentalsMatch env.listing f hf hmatch
  · intro hnone
    rw [hc] at hnone
    simp only [Option.map_eq_none'] at hnone
    unfold vocals_instrumentals_separation
    by_cases hrc : env.returncode = 0
    · cases hdir : env.outputDirExists
      · simp [hrc, hdir]
      · rcases hnone with h | h
        · simp [hrc, hdir, hc, h]
        · cases ho : lastMatch vocalsMatch env.listing <;>
            simp [hrc, hdir, hc, h, ho]
    · simp [hrc]

theorem twostem_locator_role_partition_witness :
    ((locateStems (sepOutputDir "song.mp3") ["no_vocals.mp3"]).1 = none ∨
     (locateStems (sepOutputDir "song.mp3") ["no_vocals.mp3"]).2 = none) ∧
    (vocals_instrumentals_separation
      ⟨0, true, ["no_vocals.mp3"], true, true, true⟩ "song.mp3"
      ⟨[], false⟩).mapping = [] :=
  ⟨Or.inl (by decide),
   (twostem_locator_role_partition
      ⟨0, true, ["no_vocals.mp3"], true, true, true⟩ "song.mp3"
      ⟨[], false⟩).2.2.2.2 (Or.inl (by decide))⟩

/-- C10: when several audio files match the same role's naming rule, the
locator deterministically keeps the last match in directory-listing order —
each role of its result is exactly the last matching file of the listing, no
ambiguity error exists, and appending a matching file to a listing makes it
the selected member. -/
theorem locator_last_match_selected (d : String) (files pre : List String)
    (f : String) :
    locateStems d files =
      (Option.map (fun g => joinPath d g) (lastMatch vocalsMatch files),
       Option.map (fun g => joinPath d g) (lastMatch instrumentalsMatch files)) ∧
    (vocalsMatch f = true →
      (locateStems d (pre ++ [f])).1 = some (joinPath d f)) ∧
    (instrumentalsMatch f = true →
      (locateStems d (pre ++ [f])).2 = some (joinPath d f)) := by
  refine ⟨locateStems_eq d files, ?_, ?_⟩
  · intro h
    rw [locateStems_eq, lastMatch_append vocalsMatch f h pre]
    rfl
  · intro h
    rw [locateStems_eq, lastMatch_append instrumentalsMatch f h pre]
    rfl

theorem locator_last_match_selected_witness :
    vocalsMatch "other_vocals.mp3" = true ∧
    (locateStems "out" (["vocals.mp3"] ++ ["other_vocals.mp3"])).1 =
      some (joinPath "out" "other_vocals.mp3") :=
  ⟨by decide,
   (locator_last_match_selected "out" [] ["vocals.mp3"] "other_vocals.mp3").2.1
     (by decide)⟩

/-- C6: the process exits with status 1 when the argument count is wrong or
the input reference cannot be resolved to a local file, and exits with status
0 in every other case — the separation outcome, including an empty artifact
mapping, does not affect the exit code. -/
theorem main_exit_code_policy (env : MainEnv) (argv : List String)
    (fs0 : FsState) :
    (argv.length ≠ 2 → (main env argv fs0).exitCode = 1) ∧
    (argv.length = 2 →
      ((download_audio env.resolve (argv.getD 1 "")).result = none ∨
       (download_audio env.resolve (argv.getD 1 "")).result = some "") →
      (main env argv fs0).exitCode = 1) ∧
    (argv.length = 2 →
      ∀ p, (download_audio env.resolve (argv.getD 1 "")).result = some p →
        p ≠ "" → (main env argv fs0).exitCode = 0) := by
  refine ⟨?_, ?_, ?_⟩
  · intro h
    unfold main
    simp [h]
  · intro hl hres
    obtain ⟨a, b, rfl⟩ := length_two_shape argv hl
    simp only [List.getD_cons_succ, List.getD_cons_zero] at hres
    unfold main
    rcases hres with h | h <;> simp [h]
  · intro hl p hp hne
    obtain ⟨a, b, rfl⟩ := length_two_shape argv hl
    simp only [List.getD_cons_succ, List.getD_cons_zero] at hp
    unfold main
    simp [hp, hne]

theorem main_exit_code_policy_witness :
    (["app.py"].length ≠ 2) ∧
    (main ⟨⟨fun _ => false, fun _ => false⟩, ⟨1, false, [], false, false, false⟩,
      false, false⟩ ["app.py"] ⟨[], false⟩).exitCode = 1 :=
  ⟨by decide,
   (main_exit_code_policy
      ⟨⟨fun _ => false, fun _ => false⟩, ⟨1, false, [], false, false, false⟩,
        false, false⟩ ["app.py"] ⟨[], false⟩).1 (by decide)⟩

/-- C7: the staged input file is deleted at the end of a run only when the
input reference was a URL (a local input is never deleted), removal happens
exactly when the staged file still exists and `os.remove` succeeds, a removal
failure leaves the exit status 0, and whenever a staging path was produced the
cleanup block is reached regardless of the separation outcome. -/
theorem cleanup_staged_download_policy (env : MainEnv) (argv : List String)
    (fs0 : FsState) (p : String) (hl : argv.length = 2)
    (hres : (download_audio env.resolve (argv.getD 1 "")).result = some p)
    (hp : p ≠ "") :
    (main env argv fs0).cleanupReached = true ∧
    (startsWithHttp (argv.getD 1 "") = false →
      (main env argv fs0).removedStaging = false) ∧
    (main env argv fs0).removedStaging =
      (startsWithHttp (argv.getD 1 "") && env.stagingExistsAtEnd && env.removeOk) ∧
    (main env argv fs0).exitCode = 0 := by
  obtain ⟨a, b, rfl⟩ := length_two_shape argv hl
  simp only [List.getD_cons_succ, List.getD_cons_zero] at hres ⊢
  unfold main
  refine ⟨by simp [hres, hp], ?_, by simp [hres, hp], by simp [hres, hp]⟩
  intro h
  simp [hres, hp, h]

theorem cleanup_staged_download_policy_witness :
    (main ⟨⟨fun _ => false, fun _ => true⟩, ⟨1, false, [], false, false, false⟩,
      true, false⟩ ["app.py", "https://h/s.mp3"] ⟨[], false⟩).cleanupReached = true ∧
    (startsWithHttp (["app.py", "https://h/s.mp3"].getD 1 "") = false →
      (main ⟨⟨fun _ => false, fun _ => true⟩, ⟨1, false, [], false, false, false⟩,
        true, false⟩ ["app.py", "https://h/s.mp3"] ⟨[], false⟩).removedStaging = false) ∧
    (main ⟨⟨fun _ => false, fun _ => true⟩, ⟨1, false, [], false, false, false⟩,
      true, false⟩ ["app.py", "https://h/s.mp3"] ⟨[], false⟩).removedStaging =
      (startsWithHttp (["app.py", "https://h/s.mp3"].getD 1 "") && true && false) ∧
    (main ⟨⟨fun _ => false, fun _ => true⟩, ⟨1, false, [], false, false, false⟩,
      true, false⟩ ["app.py", "https://h/s.mp3"] ⟨[], false⟩).exitCode = 0 :=
  cleanup_staged_download_policy
    ⟨⟨fun _ => false, fun _ => true⟩, ⟨1, false, [], false, false, false⟩, true, false⟩
    ["app.py", "https://h/s.mp3"] ⟨[], false⟩ "s.mp3" rfl rfl (by decide)

/-- C8: the MultiStem materializer's new file name inserts the
second-resolution numeric timestamp between the original base name and the
extension, and two runs whose timestamps differ (at second resolution, within
the 14-digit range) never produce the same final name for the same original
file, so successive runs do not overwrite prior stem outputs. -/
theorem multistem_rename_timestamped (t1 t2 : Nat) (f : String)
    (h1 : t1 < 10 ^ 14) (h2 : t2 < 10 ^ 14) (hne : t1 ≠ t2) :
    multiStemNewName t1 f =
      (splitext f).1 ++ "_" ++ timestampStr t1 ++ (splitext f).2 ∧
    multiStemNewName t1 f ≠ multiStemNewName t2 f := by
  refine ⟨rfl, ?_⟩
  intro hcontra
  apply hne
  have hdata := congrArg String.data hcontra
  simp only [multiStemNewName, timestampStr, strData_append, strData_mk,
    List.append_assoc] at hdata
  have ha := List.append_cancel_left hdata
  have hb := List.append_cancel_left ha
  have hc := (List.append_inj' hb rfl).1
  exact timestampChars_inj 14 t1 t2 h1 h2 hc

theorem multistem_rename_timestamped_witness :
    (1 : Nat) < 10 ^ 14 ∧
    multiStemNewName 1 "drums.wav" ≠ multiStemNewName 2 "drums.wav" :=
  ⟨by norm_num,
   (multistem_rename_timestamped 1 2 "drums.wav" (by norm_num) (by norm_num)
     (by norm_num)).2⟩

end StemSep
